import Mathlib

/-!
Verification of the PulsePoint database sync routines.

Shallow embedding of the Go sources:
  * `main.go`, package `tasks`: `UpdateCommodities`, `UpdateStarSystems`,
    `ContainsIgnoreCase`, `ConvertToBool` and the associated API payload types.
  * `internal/hooks/createOutpostCommodities.go`: `CreateOutpostCommodities`,
    `CreateCommodityChanges`.

The PocketBase record store is treated as an opaque collaborator: collections
are lists of records, `FindFirstRecordByData` is a first-match search,
`Save` of a fresh record appends, `Save` of an existing record replaces it in
place, and `RunInTransaction` commits the body's result or rolls back the
whole state on error.  `float64` prices and amounts are modelled as `Rat`
(the code only copies and subtracts them), `int16` flags as `Int` (no
arithmetic is performed on them, so overflow never matters), and the viper
configuration as a partial map from keys to strings.
-/

/-- `needle` is a prefix of the second list. -/
def prefixOfChars : List Char → List Char → Bool
  | [], _ => true
  | _ :: _, [] => false
  | a :: as, b :: bs => a == b && prefixOfChars as bs

/-- `needle` occurs as a contiguous run inside the second list. -/
def containsChars (needle : List Char) : List Char → Bool
  | [] => needle.isEmpty
  | b :: bs => prefixOfChars needle (b :: bs) || containsChars needle bs

/-- Go helper `ContainsIgnoreCase` (main.go:253-255): substring containment
after lowering both strings.  Lowering is done character by character, which
is exactly `String.toLower` (`String.map Char.toLower`) viewed on the
underlying character list. -/
def ContainsIgnoreCase (str substr : String) : Bool :=
  containsChars (substr.toList.map Char.toLower) (str.toList.map Char.toLower)

/-- Go helper `ConvertToBool` (main.go:267-269): `1` is `true`, any other
value is `false`. -/
def ConvertToBool (val : Int) : Bool :=
  val == 1

/-- Upstream commodity payload (main.go:79-89).  The Go field `Type` (JSON
tag `kind`) is called `Kind` here because `Type` is reserved in Lean. -/
structure Commodity where
  Name : String
  Code : String
  Kind : String
  PriceBuy : Rat
  PriceSell : Rat
  IsIllegal : Int
  IsAvailableLive : Int
  IsTemporary : Int
  IsSellable : Int
deriving DecidableEq

/-- The stored `is_illegal` value.  The create path writes a boolean
(`ConvertToBool`), the update path writes the raw integer flag
(main.go:210 vs main.go:225), so the stored value can be either shape. -/
inductive FieldValue
  | vBool (b : Bool)
  | vInt (i : Int)
deriving DecidableEq

/-- A row of the `commodities` collection: exactly the fields the sync
writes (main.go:204-210, 222-225). -/
structure CommodityRecord where
  name : String
  code : String
  ctype : String
  price_buy : Rat
  price_sell : Rat
  is_illegal : FieldValue
deriving DecidableEq

/-- The skip chain of the commodity loop (main.go:172-187), applied to the
raw payload before any rewriting, in source order. -/
def commoditySkip (c : Commodity) : Bool :=
  (c.IsAvailableLive == 0 || c.IsTemporary == 1 || c.IsSellable == 0)
  || (c.Kind == "Temporary" && c.PriceSell == 0)
  || ContainsIgnoreCase c.Name "year of the"

/-- The type rewrite (main.go:190-196): `ore` in the name forces `"Ore"`,
then `raw` in the name forces `"Raw"` (checked second, so it wins). -/
def rewrittenKind (c : Commodity) : String :=
  let k1 := if ContainsIgnoreCase c.Name "ore" then "Ore" else c.Kind
  if ContainsIgnoreCase c.Name "raw" then "Raw" else k1

/-- The record built by the create path of the commodity loop
(main.go:204-210). -/
def createdCommodityRecord (c : Commodity) : CommodityRecord :=
  { name := c.Name
    code := c.Code
    ctype := rewrittenKind c
    price_buy := c.PriceBuy
    price_sell := c.PriceSell
    is_illegal := FieldValue.vBool (ConvertToBool c.IsIllegal) }

/-- The in-place overwrite done by the update path of the commodity loop
(main.go:222-225): `name` and `code` are left alone, and `is_illegal`
receives the raw integer flag, not its boolean conversion. -/
def updatedCommodityRecord (c : Commodity) (r : CommodityRecord) : CommodityRecord :=
  { r with
    ctype := rewrittenKind c
    price_buy := c.PriceBuy
    price_sell := c.PriceSell
    is_illegal := FieldValue.vInt c.IsIllegal }

/-! ### A small generic reconcile engine

`UpdateCommodities` reconciles a list of upstream entries against a list of
rows: find the first row with the entry's code, update it in place if found,
append a fresh row otherwise.  The idempotence analysis is carried out once,
generically in the row type, and instantiated both with the full row and
with the row minus its `is_illegal` field. -/

/-- `FindFirstRecordByData`-style lookup: first element whose key matches. -/
def findBy {R : Type} (key : R → String) (k : String) (s : List R) : Option R :=
  s.find? (fun r => key r == k)

/-- Replace the first element whose key matches, in place. -/
def updBy {R : Type} (key : R → String) (k : String) (f : R → R) : List R → List R
  | [] => []
  | r :: rest => if key r == k then f r :: rest else r :: updBy key k f rest

/-- One iteration of the reconcile loop over a generic row type. -/
def gstep {R : Type} (key : R → String) (mk : Commodity → R)
    (upd : Commodity → R → R) (s : List R) (c : Commodity) : List R :=
  if commoditySkip c then s
  else
    match findBy key c.Code s with
    | none => s ++ [mk c]
    | some _ => updBy key c.Code (upd c) s

/-- A whole reconcile pass over a dataset. -/
def gfold {R : Type} (key : R → String) (mk : Commodity → R)
    (upd : Commodity → R → R) (s : List R) (d : List Commodity) : List R :=
  d.foldl (gstep key mk upd) s

/-- Key of a stored commodity row (its natural key, main.go:199). -/
def commodityKey (r : CommodityRecord) : String := r.code

/-- The loop body of `UpdateCommodities`' transaction (main.go:169-233)
for one upstream commodity: skip invalid entries, rewrite the type, then
update the first row with the same code or append a new one. -/
def processCommodity : List CommodityRecord → Commodity → List CommodityRecord :=
  gstep commodityKey createdCommodityRecord updatedCommodityRecord

/-- The full transaction body of `UpdateCommodities` (main.go:168-236),
assuming every `Save` succeeds (a failed save would roll the batch back). -/
def UpdateCommoditiesTx (s : List CommodityRecord) (d : List Commodity) :
    List CommodityRecord :=
  gfold commodityKey createdCommodityRecord updatedCommodityRecord s d

/-- A commodity row without its `is_illegal` field. -/
structure PCommodityRecord where
  name : String
  code : String
  ctype : String
  price_buy : Rat
  price_sell : Rat
deriving DecidableEq

/-- Forget the `is_illegal` field of a stored row. -/
def projCommodityRecord (r : CommodityRecord) : PCommodityRecord :=
  { name := r.name, code := r.code, ctype := r.ctype,
    price_buy := r.price_buy, price_sell := r.price_sell }

def pKey (r : PCommodityRecord) : String := r.code

def pMk (c : Commodity) : PCommodityRecord :=
  { name := c.Name, code := c.Code, ctype := rewrittenKind c,
    price_buy := c.PriceBuy, price_sell := c.PriceSell }

def pUpd (c : Commodity) (r : PCommodityRecord) : PCommodityRecord :=
  { r with
    ctype := rewrittenKind c
    price_buy := c.PriceBuy
    price_sell := c.PriceSell }

/-! ### Lemmas about the lookup and in-place update primitives -/

section ReconcileEngine

variable {R : Type} {key : R → String} {mk : Commodity → R} {upd : Commodity → R → R}

theorem findBy_cons (r : R) (rest : List R) (k : String) :
    findBy key k (r :: rest) =
      if key r == k then some r else findBy key k rest := by
  by_cases h : key r == k
  · simp [findBy, List.find?_cons_of_pos, h]
  · simp only [Bool.not_eq_true] at h
    simp [findBy, List.find?_cons_of_neg, h]

theorem findBy_append (k : String) (s t : List R) :
    findBy key k (s ++ t) =
      match findBy key k s with
      | some r => some r
      | none => findBy key k t := by
  induction s with
  | nil => simp [findBy]
  | cons r rest ih =>
    by_cases h : key r == k
    · simp [List.cons_append, findBy_cons, h]
    · simp only [Bool.not_eq_true] at h
      simp [List.cons_append, findBy_cons, h, ih]

theorem findBy_updBy_self (k : String) (f : R → R)
    (hf : ∀ r, key (f r) = key r) (s : List R) :
    findBy key k (updBy key k f s) = (findBy key k s).map f := by
  induction s with
  | nil => simp [findBy, updBy]
  | cons r rest ih =>
    by_cases h : key r == k
    · simp [updBy, h, findBy_cons, hf]
    · simp only [Bool.not_eq_true] at h
      simp [updBy, h, findBy_cons, ih]

theorem findBy_updBy_ne (k k' : String) (f : R → R)
    (hf : ∀ r, key (f r) = key r) (hne : k ≠ k') (s : List R) :
    findBy key k' (updBy key k f s) = findBy key k' s := by
  induction s with
  | nil => simp [updBy]
  | cons r rest ih =>
    by_cases h : key r == k
    · have hk : key r = k := by simpa using h
      have h' : (key (f r) == k') = false := by
        simp [hf, hk]
        exact hne
      have h'' : (key r == k') = false := by
        simp [hk]
        exact hne
      simp [updBy, h, findBy_cons, h', h'']
    · simp only [Bool.not_eq_true] at h
      simp [updBy, h, findBy_cons, ih]

theorem updBy_id (k : String) (f : R → R) (s : List R)
    (h : ∀ r, findBy key k s = some r → f r = r) :
    updBy key k f s = s := by
  induction s with
  | nil => simp [updBy]
  | cons r rest ih =>
    by_cases hr : key r == k
    · have := h r (by simp [findBy_cons, hr])
      simp [updBy, hr, this]
    · simp only [Bool.not_eq_true] at hr
      have ih' := ih (fun r' hr' => h r' (by simp [findBy_cons, hr, hr']))
      simp [updBy, hr, ih']

theorem updBy_append_left (k : String) (f : R → R) (s t : List R)
    (h : (findBy key k s).isSome = true) :
    updBy key k f (s ++ t) = updBy key k f s ++ t := by
  induction s with
  | nil => simp [findBy] at h
  | cons r rest ih =>
    by_cases hr : key r == k
    · simp [updBy, hr]
    · simp only [Bool.not_eq_true] at hr
      rw [findBy_cons] at h
      simp [hr] at h
      simp [updBy, hr, ih h]

theorem updBy_updBy_same (k : String) (f g : R → R)
    (hg : ∀ r, key (g r) = key r) (s : List R) :
    updBy key k f (updBy key k g s) = updBy key k (fun r => f (g r)) s := by
  induction s with
  | nil => simp [updBy]
  | cons r rest ih =>
    by_cases hr : key r == k
    · have : (key (g r) == k) = true := by simp [hg]; simpa using hr
      simp [updBy, hr, this]
    · simp only [Bool.not_eq_true] at hr
      simp [updBy, hr, ih]

theorem updBy_congr (k : String) (f g : R → R) (s : List R)
    (h : ∀ r, f r = g r) : updBy key k f s = updBy key k g s := by
  induction s with
  | nil => simp [updBy]
  | cons r rest ih => by_cases hr : key r == k <;> simp [updBy, hr, h, ih]

end ReconcileEngine

/-- The last entry of a dataset that actually writes code `k` (i.e. is not
skipped and carries that code), if any. -/
def lastWriter (k : String) : List Commodity → Option Commodity
  | [] => none
  | e :: rest =>
    match lastWriter k rest with
    | some c => some c
    | none => if commoditySkip e = false ∧ e.Code = k then some e else none

theorem lastWriter_spec {k : String} :
    ∀ {d : List Commodity} {c : Commodity}, lastWriter k d = some c →
      commoditySkip c = false ∧ c.Code = k ∧ c ∈ d := by
  intro d
  induction d with
  | nil => intro c h; simp [lastWriter] at h
  | cons e rest ih =>
    intro c h
    rw [lastWriter] at h
    cases hrest : lastWriter k rest with
    | some c' =>
      rw [hrest] at h
      cases h
      rcases ih hrest with ⟨h1, h2, h3⟩
      exact ⟨h1, h2, List.mem_cons_of_mem _ h3⟩
    | none =>
      rw [hrest] at h
      by_cases hc : commoditySkip e = false ∧ e.Code = k
      · rw [if_pos hc] at h
        cases h
        exact ⟨hc.1, hc.2, List.mem_cons_self _ _⟩
      · rw [if_neg hc] at h
        cases h

theorem lastWriter_cons_of_some {k : String} {e : Commodity} {rest : List Commodity}
    {c : Commodity} (h : lastWriter k rest = some c) :
    lastWriter k (e :: rest) = some c := by
  rw [lastWriter, h]

section ReconcileSteps

variable {R : Type} {key : R → String} {mk : Commodity → R} {upd : Commodity → R → R}

theorem gstep_skip {s : List R} {c : Commodity} (h : commoditySkip c = true) :
    gstep key mk upd s c = s := by
  simp [gstep, h]

theorem gstep_create {s : List R} {c : Commodity} (hs : commoditySkip c = false)
    (h : findBy key c.Code s = none) :
    gstep key mk upd s c = s ++ [mk c] := by
  simp [gstep, hs, h]

theorem gstep_update {s : List R} {c : Commodity} {r : R}
    (hs : commoditySkip c = false) (h : findBy key c.Code s = some r) :
    gstep key mk upd s c = updBy key c.Code (upd c) s := by
  simp [gstep, hs, h]

theorem gstep_fix {s : List R} {c : Commodity} {r : R}
    (h : findBy key c.Code s = some r) (hfix : upd c r = r) :
    gstep key mk upd s c = s := by
  by_cases hs : commoditySkip c
  · exact gstep_skip hs
  · rw [gstep_update (Bool.not_eq_true _ ▸ hs : commoditySkip c = false) h]
    apply updBy_id
    intro r' hr'
    rw [h] at hr'
    cases hr'
    exact hfix

theorem findBy_gstep_mono (hK1 : ∀ c r, key (upd c r) = key r)
    {s : List R} {k : String} {c : Commodity}
    (h : (findBy key k s).isSome = true) :
    (findBy key k (gstep key mk upd s c)).isSome = true := by
  by_cases hs : commoditySkip c
  · rwa [gstep_skip hs]
  · replace hs : commoditySkip c = false := by simpa using hs
    cases hf : findBy key c.Code s with
    | none =>
      rw [gstep_create hs hf, findBy_append]
      cases hfk : findBy key k s with
      | none => rw [hfk] at h; simp at h
      | some r => simp
    | some r =>
      rw [gstep_update hs hf]
      by_cases hk : c.Code = k
      · subst hk
        rw [findBy_updBy_self _ _ (hK1 c), hf]
        simp
      · rwa [findBy_updBy_ne _ _ _ (hK1 c) hk]

theorem findBy_gfold_mono (hK1 : ∀ c r, key (upd c r) = key r)
    {d : List Commodity} :
    ∀ {s : List R} {k : String}, (findBy key k s).isSome = true →
      (findBy key k (gfold key mk upd s d)).isSome = true := by
  induction d with
  | nil => intro s k h; exact h
  | cons e rest ih =>
    intro s k h
    exact ih (findBy_gstep_mono hK1 h)

theorem findBy_gstep_self (hK1 : ∀ c r, key (upd c r) = key r)
    (hK2 : ∀ c, key (mk c) = c.Code)
    {s : List R} {c : Commodity} (hs : commoditySkip c = false) :
    (findBy key c.Code (gstep key mk upd s c)).isSome = true := by
  cases hf : findBy key c.Code s with
  | none =>
    rw [gstep_create hs hf, findBy_append, hf]
    simp [findBy, hK2]
  | some r =>
    rw [gstep_update hs hf, findBy_updBy_self _ _ (hK1 c), hf]
    simp

theorem findBy_gfold_isSome_of_mem (hK1 : ∀ c r, key (upd c r) = key r)
    (hK2 : ∀ c, key (mk c) = c.Code) {d : List Commodity} :
    ∀ (s : List R) {c : Commodity}, c ∈ d → commoditySkip c = false →
      (findBy key c.Code (gfold key mk upd s d)).isSome = true := by
  induction d with
  | nil => intro s c h; simp at h
  | cons e rest ih =>
    intro s c hmem hs
    rcases List.mem_cons.mp hmem with h | h
    · subst h
      show (findBy key c.Code
        (gfold key mk upd (gstep key mk upd s c) rest)).isSome = true
      exact findBy_gfold_mono hK1 (findBy_gstep_self hK1 hK2 hs)
    · show (findBy key c.Code
        (gfold key mk upd (gstep key mk upd s e) rest)).isSome = true
      exact ih _ h hs

theorem findBy_gstep_noWrite (hK1 : ∀ c r, key (upd c r) = key r)
    (hK2 : ∀ c, key (mk c) = c.Code)
    {s : List R} {k : String} {c : Commodity}
    (h : ¬(commoditySkip c = false ∧ c.Code = k)) :
    findBy key k (gstep key mk upd s c) = findBy key k s := by
  by_cases hs : commoditySkip c
  · rw [gstep_skip hs]
  · replace hs : commoditySkip c = false := by simpa using hs
    have hk : c.Code ≠ k := fun hck => h ⟨hs, hck⟩
    cases hf : findBy key c.Code s with
    | none =>
      rw [gstep_create hs hf, findBy_append]
      cases hfk : findBy key k s with
      | some r => rfl
      | none =>
        simp only [findBy, List.find?_cons, List.find?_nil]
        have : (key (mk c) == k) = false := by
          simp [hK2]
          exact hk
        rw [this]
    | some r =>
      rw [gstep_update hs hf]
      exact findBy_updBy_ne _ _ _ (hK1 c) hk s

theorem findBy_gfold_stable (hK1 : ∀ c r, key (upd c r) = key r)
    (hK2 : ∀ c, key (mk c) = c.Code) {k : String} {d : List Commodity} :
    ∀ {s : List R}, lastWriter k d = none →
      findBy key k (gfold key mk upd s d) = findBy key k s := by
  induction d with
  | nil => intro s _; rfl
  | cons e rest ih =>
    intro s h
    rw [lastWriter] at h
    cases hrest : lastWriter k rest with
    | some c => rw [hrest] at h; cases h
    | none =>
      rw [hrest] at h
      have he : ¬(commoditySkip e = false ∧ e.Code = k) := by
        by_cases hc : commoditySkip e = false ∧ e.Code = k
        · rw [if_pos hc] at h; cases h
        · exact hc
      show findBy key k (gfold key mk upd (gstep key mk upd s e) rest) = findBy key k s
      rw [ih hrest, findBy_gstep_noWrite hK1 hK2 he]

end ReconcileSteps

section ReconcileIdem

variable {R : Type} {key : R → String} {mk : Commodity → R} {upd : Commodity → R → R}

theorem updBy_updBy_ne (k k' : String) (f g : R → R)
    (hf : ∀ r, key (f r) = key r) (hg : ∀ r, key (g r) = key r)
    (hne : k ≠ k') (s : List R) :
    updBy key k f (updBy key k' g s) = updBy key k' g (updBy key k f s) := by
  induction s with
  | nil => simp [updBy]
  | cons r rest ih =>
    by_cases h1 : key r == k
    · have hk : key r = k := by simpa using h1
      have h2 : (key r == k') = false := by simp [hk]; exact hne
      have h3 : (key (f r) == k') = false := by simp [hf, hk]; exact hne
      simp [updBy, h1, h2, h3]
    · by_cases h2 : key r == k'
      · have hk' : key r = k' := by simpa using h2
        have h1' : (key r == k) = false := by
          simp [hk']; exact fun h => hne h.symm
        have h3 : (key (g r) == k) = false := by
          simp [hg, hk']; exact fun h => hne h.symm
        simp [updBy, h1', h2, h3]
      · simp only [Bool.not_eq_true] at h1 h2
        simp [updBy, h1, h2, ih]

theorem gstep_same (hK1 : ∀ c r, key (upd c r) = key r)
    (hABS : ∀ c e r, upd c (upd e r) = upd c r)
    {s : List R} {c e : Commodity} (hc : commoditySkip c = false)
    (he : commoditySkip e = false) (hcode : e.Code = c.Code)
    (hf : (findBy key c.Code s).isSome = true) :
    gstep key mk upd (gstep key mk upd s c) e = gstep key mk upd s e := by
  obtain ⟨r, hr⟩ := Option.isSome_iff_exists.mp hf
  rw [gstep_update hc hr]
  have hfind : findBy key e.Code (updBy key c.Code (upd c) s) = some (upd c r) := by
    rw [hcode, findBy_updBy_self _ _ (hK1 c), hr]; rfl
  rw [gstep_update he hfind]
  have hr' : findBy key e.Code s = some r := by rw [hcode]; exact hr
  rw [gstep_update he hr', hcode, updBy_updBy_same _ _ _ (hK1 c)]
  exact updBy_congr _ _ _ _ (fun r0 => hABS e c r0)

theorem gstep_comm (hK1 : ∀ c r, key (upd c r) = key r)
    (hK2 : ∀ c, key (mk c) = c.Code)
    {s : List R} {c e : Commodity} (hne : c.Code ≠ e.Code)
    (hf : (findBy key c.Code s).isSome = true) :
    gstep key mk upd (gstep key mk upd s c) e
      = gstep key mk upd (gstep key mk upd s e) c := by
  by_cases hc : commoditySkip c
  · rw [gstep_skip hc, gstep_skip hc]
  · replace hc : commoditySkip c = false := by simpa using hc
    by_cases he : commoditySkip e
    · rw [gstep_skip he, gstep_skip he]
    · replace he : commoditySkip e = false := by simpa using he
      obtain ⟨r, hr⟩ := Option.isSome_iff_exists.mp hf
      cases hfe : findBy key e.Code s with
      | some re =>
        rw [gstep_update hc hr]
        have h1 : findBy key e.Code (updBy key c.Code (upd c) s) = some re := by
          rw [findBy_updBy_ne _ _ _ (hK1 c) hne, hfe]
        rw [gstep_update he h1, gstep_update he hfe]
        have h2 : findBy key c.Code (updBy key e.Code (upd e) s) = some r := by
          rw [findBy_updBy_ne _ _ _ (hK1 e) (Ne.symm hne), hr]
        rw [gstep_update hc h2]
        exact updBy_updBy_ne _ _ _ _ (fun r0 => hK1 e r0) (fun r0 => hK1 c r0)
          (Ne.symm hne) s
      | none =>
        rw [gstep_update hc hr]
        have h1 : findBy key e.Code (updBy key c.Code (upd c) s) = none := by
          rw [findBy_updBy_ne _ _ _ (hK1 c) hne]; exact hfe
        rw [gstep_create he h1, gstep_create he hfe]
        have h2 : findBy key c.Code (s ++ [mk e]) = some r := by
          rw [findBy_append, hr]
        rw [gstep_update hc h2]
        rw [updBy_append_left _ _ _ _ (by rw [hr]; rfl)]

theorem gfold_drop (hK1 : ∀ c r, key (upd c r) = key r)
    (hK2 : ∀ c, key (mk c) = c.Code)
    (hABS : ∀ c e r, upd c (upd e r) = upd c r)
    {d : List Commodity} :
    ∀ {s : List R} {c : Commodity},
      (findBy key c.Code s).isSome = true →
      (lastWriter c.Code d).isSome = true →
      gfold key mk upd (gstep key mk upd s c) d = gfold key mk upd s d := by
  induction d with
  | nil => intro s c _ hw; simp [lastWriter] at hw
  | cons e rest ih =>
    intro s c hs hw
    by_cases hc : commoditySkip c
    · rw [gstep_skip hc]
    · replace hc : commoditySkip c = false := by simpa using hc
      show gfold key mk upd (gstep key mk upd (gstep key mk upd s c) e) rest
         = gfold key mk upd (gstep key mk upd s e) rest
      by_cases he : commoditySkip e
      · have hw' : (lastWriter c.Code rest).isSome = true := by
          rw [lastWriter] at hw
          cases hrest : lastWriter c.Code rest with
          | some w => rfl
          | none =>
            rw [hrest, if_neg (fun hand => by simp [hand.1] at he)] at hw
            simp at hw
        rw [gstep_skip he, gstep_skip he]
        exact ih hs hw'
      · replace he : commoditySkip e = false := by simpa using he
        by_cases hcode : e.Code = c.Code
        · rw [gstep_same hK1 hABS hc he hcode hs]
        · have hw' : (lastWriter c.Code rest).isSome = true := by
            rw [lastWriter] at hw
            cases hrest : lastWriter c.Code rest with
            | some w => rfl
            | none =>
              rw [hrest, if_neg (fun hand => hcode hand.2)] at hw
              simp at hw
          rw [gstep_comm hK1 hK2 (fun h => hcode h.symm) hs]
          exact ih (findBy_gstep_mono hK1 hs) hw'

end ReconcileIdem

section ReconcileMain

variable {R : Type} {key : R → String} {mk : Commodity → R} {upd : Commodity → R → R}

theorem gfold_lastWriter_val (hK1 : ∀ c r, key (upd c r) = key r)
    (hK2 : ∀ c, key (mk c) = c.Code) {d : List Commodity} :
    ∀ (s : List R) {c : Commodity}, lastWriter c.Code d = some c →
      ∃ r, findBy key c.Code (gfold key mk upd s d) = some r ∧
        ((∃ r', r = upd c r') ∨ (findBy key c.Code s = none ∧ r = mk c)) := by
  induction d with
  | nil => intro s c h; simp [lastWriter] at h
  | cons e rest ih =>
    intro s c h
    rw [lastWriter] at h
    cases hrest : lastWriter c.Code rest with
    | some c' =>
      rw [hrest] at h
      rw [Option.some_inj] at h
      rw [h] at hrest
      obtain ⟨r, hr, hform⟩ := ih (gstep key mk upd s e) hrest
      refine ⟨r, hr, ?_⟩
      rcases hform with hA | ⟨hnone, hB⟩
      · exact Or.inl hA
      · refine Or.inr ⟨?_, hB⟩
        cases hfs : findBy key c.Code s with
        | none => rfl
        | some r0 =>
          have hmono : (findBy key c.Code (gstep key mk upd s e)).isSome = true :=
            findBy_gstep_mono hK1 (by rw [hfs]; rfl)
          rw [hnone] at hmono
          simp at hmono
    | none =>
      rw [hrest] at h
      by_cases hcond : commoditySkip e = false ∧ e.Code = c.Code
      · rw [if_pos hcond] at h
        rw [Option.some_inj] at h
        subst h
        cases hfs : findBy key e.Code s with
        | some r0 =>
          have hfind : findBy key e.Code (gstep key mk upd s e)
              = some (upd e r0) := by
            rw [gstep_update hcond.1 hfs, findBy_updBy_self _ _ (hK1 e), hfs]; rfl
          refine ⟨upd e r0, ?_, Or.inl ⟨r0, rfl⟩⟩
          show findBy key e.Code
            (gfold key mk upd (gstep key mk upd s e) rest) = some (upd e r0)
          rw [findBy_gfold_stable hK1 hK2 hrest, hfind]
        | none =>
          have hfind : findBy key e.Code (gstep key mk upd s e)
              = some (mk e) := by
            rw [gstep_create hcond.1 hfs, findBy_append, hfs]
            simp [findBy, hK2]
          refine ⟨mk e, ?_, Or.inr ⟨rfl, rfl⟩⟩
          show findBy key e.Code
            (gfold key mk upd (gstep key mk upd s e) rest) = some (mk e)
          rw [findBy_gfold_stable hK1 hK2 hrest, hfind]
      · rw [if_neg hcond] at h
        cases h

theorem gfold_fix (hK1 : ∀ c r, key (upd c r) = key r)
    (hK2 : ∀ c, key (mk c) = c.Code)
    (hABS : ∀ c e r, upd c (upd e r) = upd c r) {d : List Commodity} :
    ∀ {s : List R},
      (∀ c, c ∈ d → commoditySkip c = false → (findBy key c.Code s).isSome = true) →
      (∀ c, lastWriter c.Code d = some c → gstep key mk upd s c = s) →
      gfold key mk upd s d = s := by
  induction d with
  | nil => intro s _ _; rfl
  | cons e rest ih =>
    intro s inv1 inv2
    show gfold key mk upd (gstep key mk upd s e) rest = s
    have inv1' : ∀ c, c ∈ rest → commoditySkip c = false →
        (findBy key c.Code s).isSome = true :=
      fun c hc hs => inv1 c (List.mem_cons_of_mem _ hc) hs
    have inv2' : ∀ c, lastWriter c.Code rest = some c →
        gstep key mk upd s c = s :=
      fun c hc => inv2 c (lastWriter_cons_of_some hc)
    by_cases he : commoditySkip e
    · rw [gstep_skip he]
      exact ih inv1' inv2'
    · replace he : commoditySkip e = false := by simpa using he
      cases hw : lastWriter e.Code rest with
      | none =>
        have hlast : lastWriter e.Code (e :: rest) = some e := by
          rw [lastWriter, hw, if_pos ⟨he, rfl⟩]
        rw [inv2 e hlast]
        exact ih inv1' inv2'
      | some w =>
        rw [gfold_drop hK1 hK2 hABS (inv1 e (List.mem_cons_self _ _) he)
          (by rw [hw]; rfl)]
        exact ih inv1' inv2'

/-- From the second pass on, a reconcile run is strictly idempotent: a third
pass over the same data leaves the store exactly as the second did. -/
theorem gfold_thrice_eq_twice (hK1 : ∀ c r, key (upd c r) = key r)
    (hK2 : ∀ c, key (mk c) = c.Code)
    (hABS : ∀ c e r, upd c (upd e r) = upd c r)
    (s : List R) (d : List Commodity) :
    gfold key mk upd (gfold key mk upd (gfold key mk upd s d) d) d
      = gfold key mk upd (gfold key mk upd s d) d := by
  apply gfold_fix hK1 hK2 hABS
  · intro c hc hs
    exact findBy_gfold_isSome_of_mem hK1 hK2 _ hc hs
  · intro c hlw
    obtain ⟨hskip, -, hmem⟩ := lastWriter_spec hlw
    obtain ⟨r, hr, hform⟩ :=
      gfold_lastWriter_val hK1 hK2 (gfold key mk upd s d) hlw
    rcases hform with ⟨r', rfl⟩ | ⟨hnone, -⟩
    · exact gstep_fix hr (hABS c c r')
    · have hpres := findBy_gfold_isSome_of_mem hK1 hK2 s hmem hskip
      rw [hnone] at hpres
      simp at hpres

/-- When updating a freshly created row is a no-op (`upd c (mk c) = mk c`),
one reconcile pass is already idempotent. -/
theorem gfold_twice_eq_once (hK1 : ∀ c r, key (upd c r) = key r)
    (hK2 : ∀ c, key (mk c) = c.Code)
    (hABS : ∀ c e r, upd c (upd e r) = upd c r)
    (hMK : ∀ c, upd c (mk c) = mk c)
    (s : List R) (d : List Commodity) :
    gfold key mk upd (gfold key mk upd s d) d = gfold key mk upd s d := by
  apply gfold_fix hK1 hK2 hABS
  · intro c hc hs
    exact findBy_gfold_isSome_of_mem hK1 hK2 _ hc hs
  · intro c hlw
    obtain ⟨r, hr, hform⟩ := gfold_lastWriter_val hK1 hK2 s hlw
    rcases hform with ⟨r', rfl⟩ | ⟨-, rfl⟩
    · exact gstep_fix hr (hABS c c r')
    · exact gstep_fix hr (hMK c)

end ReconcileMain

/-! ### Transfer of a reconcile pass along a field projection -/

section ReconcileTransfer

variable {R S : Type} {key : R → String} {key' : S → String}

theorem map_findBy (φ : R → S) (hφ : ∀ r, key' (φ r) = key r)
    (k : String) (s : List R) :
    findBy key' k (s.map φ) = (findBy key k s).map φ := by
  induction s with
  | nil => simp [findBy]
  | cons r rest ih =>
    by_cases h : key r == k
    · have h' : (key' (φ r) == k) = true := by rw [hφ]; exact h
      simp [findBy_cons, h, h']
    · simp only [Bool.not_eq_true] at h
      have h' : (key' (φ r) == k) = false := by rw [hφ]; exact h
      simp [findBy_cons, h, h', ih]

theorem map_updBy (φ : R → S) (hφ : ∀ r, key' (φ r) = key r) (k : String)
    (f : R → R) (f' : S → S) (hf : ∀ r, φ (f r) = f' (φ r)) (s : List R) :
    (updBy key k f s).map φ = updBy key' k f' (s.map φ) := by
  induction s with
  | nil => simp [updBy]
  | cons r rest ih =>
    by_cases h : key r == k
    · have h' : (key' (φ r) == k) = true := by rw [hφ]; exact h
      simp [updBy, h, h', hf]
    · simp only [Bool.not_eq_true] at h
      have h' : (key' (φ r) == k) = false := by rw [hφ]; exact h
      simp [updBy, h, h', ih]

theorem map_gstep (φ : R → S) (hφ : ∀ r, key' (φ r) = key r)
    {mk : Commodity → R} {mk' : Commodity → S}
    {upd : Commodity → R → R} {upd' : Commodity → S → S}
    (hmk : ∀ c, φ (mk c) = mk' c)
    (hupd : ∀ c r, φ (upd c r) = upd' c (φ r))
    (s : List R) (c : Commodity) :
    (gstep key mk upd s c).map φ = gstep key' mk' upd' (s.map φ) c := by
  by_cases hs : commoditySkip c
  · rw [gstep_skip hs, gstep_skip hs]
  · replace hs : commoditySkip c = false := by simpa using hs
    cases hf : findBy key c.Code s with
    | none =>
      have hf' : findBy key' c.Code (s.map φ) = none := by
        rw [map_findBy φ hφ, hf]; rfl
      rw [gstep_create hs hf, gstep_create hs hf']
      simp [hmk]
    | some r =>
      have hf' : findBy key' c.Code (s.map φ) = some (φ r) := by
        rw [map_findBy φ hφ, hf]; rfl
      rw [gstep_update hs hf, gstep_update hs hf']
      exact map_updBy φ hφ _ _ _ (hupd c) s

theorem map_gfold (φ : R → S) (hφ : ∀ r, key' (φ r) = key r)
    {mk : Commodity → R} {mk' : Commodity → S}
    {upd : Commodity → R → R} {upd' : Commodity → S → S}
    (hmk : ∀ c, φ (mk c) = mk' c)
    (hupd : ∀ c r, φ (upd c r) = upd' c (φ r))
    {d : List Commodity} :
    ∀ s : List R,
      (gfold key mk upd s d).map φ = gfold key' mk' upd' (s.map φ) d := by
  induction d with
  | nil => intro s; rfl
  | cons e rest ih =>
    intro s
    show (gfold key mk upd (gstep key mk upd s e) rest).map φ
      = gfold key' mk' upd' (gstep key' mk' upd' (s.map φ) e) rest
    rw [ih, map_gstep φ hφ hmk hupd]

end ReconcileTransfer

/-! ### Facts about the two commodity-row instantiations -/

theorem commodityKey_updated (c : Commodity) (r : CommodityRecord) :
    commodityKey (updatedCommodityRecord c r) = commodityKey r := rfl

theorem commodityKey_created (c : Commodity) :
    commodityKey (createdCommodityRecord c) = c.Code := rfl

theorem updated_absorb (c e : Commodity) (r : CommodityRecord) :
    updatedCommodityRecord c (updatedCommodityRecord e r)
      = updatedCommodityRecord c r := rfl

theorem pKey_pUpd (c : Commodity) (r : PCommodityRecord) :
    pKey (pUpd c r) = pKey r := rfl

theorem pKey_pMk (c : Commodity) : pKey (pMk c) = c.Code := rfl

theorem pUpd_absorb (c e : Commodity) (r : PCommodityRecord) :
    pUpd c (pUpd e r) = pUpd c r := rfl

theorem pUpd_pMk (c : Commodity) : pUpd c (pMk c) = pMk c := rfl

theorem proj_key (r : CommodityRecord) :
    pKey (projCommodityRecord r) = commodityKey r := rfl

theorem proj_created (c : Commodity) :
    projCommodityRecord (createdCommodityRecord c) = pMk c := rfl

theorem proj_updated (c : Commodity) (r : CommodityRecord) :
    projCommodityRecord (updatedCommodityRecord c r)
      = pUpd c (projCommodityRecord r) := rfl

/-- Projecting away `is_illegal` commutes with a full commodity pass. -/
theorem proj_UpdateCommoditiesTx (s : List CommodityRecord) (d : List Commodity) :
    (UpdateCommoditiesTx s d).map projCommodityRecord
      = gfold pKey pMk pUpd (s.map projCommodityRecord) d :=
  map_gfold projCommodityRecord proj_key proj_created proj_updated s

/-! ### Star-system sync: payload types, record store, and control flow -/

/-- Upstream star-system payload (main.go:275-283). -/
structure StarSystem where
  UexID : Int
  Name : String
  Code : String
  Jurisdiction : String
  Faction : String
  IsAvailable : Int
  IsVisible : Int
deriving DecidableEq

/-- Upstream planet payload (main.go:289-295). -/
structure Planet where
  UexID : Int
  Name : String
  Code : String
  Jurisdiction : String
  Faction : String
deriving DecidableEq

/-- Upstream moon payload (main.go:301-308). -/
structure Moon where
  UexID : Int
  Name : String
  Code : String
  PlanetName : String
  Jurisdiction : String
  Faction : String
deriving DecidableEq

/-- Upstream space-station payload (main.go:314-328). -/
structure SpaceStation where
  UexID : Int
  StarSystemName : String
  PlanetName : String
  MoonName : String
  Name : String
  Code : String
  PadTypes : String
  Jurisdiction : String
  Faction : String
  HasTerminal : Int
  HasRefinery : Int
  Orbit : String
  IsLagrange : Int
deriving DecidableEq

/-- A stored field value: a string, a boolean, or a relation to another
record through its internal id. -/
inductive RVal
  | str (v : String)
  | boolean (v : Bool)
  | ref (v : String)
deriving DecidableEq

/-- A PocketBase record: an opaque internal id plus named fields. -/
structure PBRecord where
  id : String
  fields : List (String × RVal)
deriving DecidableEq

def setFieldList : List (String × RVal) → String → RVal → List (String × RVal)
  | [], k, v => [(k, v)]
  | kv :: rest, k, v =>
    if kv.1 == k then (k, v) :: rest else kv :: setFieldList rest k v

/-- `record.Set(k, v)`: overwrite the field if present, append it
otherwise. -/
def setField (r : PBRecord) (k : String) (v : RVal) : PBRecord :=
  { r with fields := setFieldList r.fields k v }

/-- Read a field of a record. -/
def getField (r : PBRecord) (k : String) : Option RVal :=
  (r.fields.find? (fun kv => kv.1 == k)).map (fun kv => kv.2)

/-- `FindFirstRecordByData(collection, field, value)` with a string value:
first record whose field equals the value (an error in Go maps to `none`). -/
def findFirstByData (coll : List PBRecord) (field value : String) :
    Option PBRecord :=
  coll.find? (fun r => getField r field == some (RVal.str value))

/-- Saving a record found in the collection writes it back in place. -/
def replaceFirstBy (p : PBRecord → Bool) (f : PBRecord → PBRecord) :
    List PBRecord → List PBRecord
  | [] => []
  | r :: rest => if p r then f r :: rest else r :: replaceFirstBy p f rest

/-- The collections touched by `UpdateStarSystems`, plus a counter used to
hand out fresh internal ids (the store assigns an opaque identifier on
creation; only freshness matters here). -/
structure SystemsDb where
  star_systems : List PBRecord
  planets : List PBRecord
  moons : List PBRecord
  space_stations : List PBRecord
  nextId : Nat
deriving DecidableEq

def freshId (n : Nat) : String := "rec" ++ toString n

/-- `RunInTransaction`: commit the body's final state, or roll the whole
state back when the body returns an error. -/
def runTransaction {Db : Type} (db : Db) (body : Db → Except Unit Db) : Db :=
  match body db with
  | Except.ok db' => db'
  | Except.error _ => db

theorem runTransaction_of_ok {Db : Type} {db db' : Db}
    {body : Db → Except Unit Db} (h : body db = Except.ok db') :
    runTransaction db body = db' := by
  unfold runTransaction
  rw [h]

theorem runTransaction_of_error {Db : Type} {db : Db}
    {body : Db → Except Unit Db} {e : Unit} (h : body db = Except.error e) :
    runTransaction db body = db := by
  unfold runTransaction
  rw [h]

/-- The record built for a new star system (main.go:416-429): only name,
code, jurisdiction and faction are set — neither the external `UexID` nor
the availability or visibility flags are stored. -/
def newSystemRecord (sys : StarSystem) (rid : String) : PBRecord :=
  let r : PBRecord := { id := rid, fields := [] }
  let r := setField r "name" (RVal.str sys.Name)
  let r := setField r "code" (RVal.str sys.Code)
  let r := setField r "jurisdiction" (RVal.str sys.Jurisdiction)
  setField r "faction" (RVal.str sys.Faction)

/-- One iteration of the star-system transaction loop (main.go:406-444). -/
def systemStep (db : SystemsDb) (sys : StarSystem) : SystemsDb :=
  match findFirstByData db.star_systems "code" sys.Code with
  | none =>
    { db with
      star_systems := db.star_systems ++ [newSystemRecord sys (freshId db.nextId)]
      nextId := db.nextId + 1 }
  | some _ =>
    { db with
      star_systems := replaceFirstBy
        (fun r => getField r "code" == some (RVal.str sys.Code))
        (fun r => setField (setField r "jurisdiction" (RVal.str sys.Jurisdiction))
          "faction" (RVal.str sys.Faction))
        db.star_systems }

/-- The record built for a new planet (main.go:504-508). -/
def newPlanetRecord (p : Planet) (rid : String) : PBRecord :=
  let r : PBRecord := { id := rid, fields := [] }
  let r := setField r "name" (RVal.str p.Name)
  let r := setField r "code" (RVal.str p.Code)
  let r := setField r "jurisdiction" (RVal.str p.Jurisdiction)
  setField r "faction" (RVal.str p.Faction)

/-- One iteration of the planet transaction loop (main.go:498-529); the
update path overwrites name, code, jurisdiction and faction
(main.go:518-521). -/
def planetStep (db : SystemsDb) (p : Planet) : SystemsDb :=
  match findFirstByData db.planets "code" p.Code with
  | none =>
    { db with
      planets := db.planets ++ [newPlanetRecord p (freshId db.nextId)]
      nextId := db.nextId + 1 }
  | some _ =>
    { db with
      planets := replaceFirstBy
        (fun r => getField r "code" == some (RVal.str p.Code))
        (fun r =>
          let r := setField r "name" (RVal.str p.Name)
          let r := setField r "code" (RVal.str p.Code)
          let r := setField r "jurisdiction" (RVal.str p.Jurisdiction)
          setField r "faction" (RVal.str p.Faction))
        db.planets }

/-- The record built for a new moon (main.go:595-600): carries a relation
to its parent planet's internal id. -/
def newMoonRecord (m : Moon) (planetId : String) (rid : String) : PBRecord :=
  let r : PBRecord := { id := rid, fields := [] }
  let r := setField r "name" (RVal.str m.Name)
  let r := setField r "code" (RVal.str m.Code)
  let r := setField r "planet" (RVal.ref planetId)
  let r := setField r "jurisdiction" (RVal.str m.Jurisdiction)
  setField r "faction" (RVal.str m.Faction)

/-- One iteration of the moon transaction loop (main.go:583-622): a moon
whose named parent planet is not in the store is skipped (`continue`,
main.go:585-589) — no error is raised, so the batch goes on. -/
def moonStep (db : SystemsDb) (m : Moon) : SystemsDb :=
  match findFirstByData db.planets "name" m.PlanetName with
  | none => db
  | some planet =>
    match findFirstByData db.moons "code" m.Code with
    | none =>
      { db with
        moons := db.moons ++ [newMoonRecord m planet.id (freshId db.nextId)]
        nextId := db.nextId + 1 }
    | some _ =>
      { db with
        moons := replaceFirstBy
          (fun r => getField r "code" == some (RVal.str m.Code))
          (fun r =>
            let r := setField r "name" (RVal.str m.Name)
            let r := setField r "code" (RVal.str m.Code)
            let r := setField r "planet" (RVal.ref planet.id)
            let r := setField r "jurisdiction" (RVal.str m.Jurisdiction)
            setField r "faction" (RVal.str m.Faction))
          db.moons }

/-- Resolution of a station's optional planet and moon references
(main.go:688-707).  The moon lookup sits inside the branch for a non-empty
planet name, so a station with an empty planet name resolves neither, even
when its moon name is non-empty. -/
def stationRefs (db : SystemsDb) (st : SpaceStation) :
    Option PBRecord × Option PBRecord :=
  if st.PlanetName != "" then
    (findFirstByData db.planets "name" st.PlanetName,
      if st.MoonName != "" then findFirstByData db.moons "name" st.MoonName
      else none)
  else (none, none)

/-- The ordered field writes shared by the create and update paths of the
station loop (main.go:713-728 and main.go:739-753 set the same fields in
the same order): the planet and moon relations are only set when they were
resolved. -/
def setStationFields (r0 : PBRecord) (st : SpaceStation) (sysId : String)
    (p m : Option PBRecord) : PBRecord :=
  let r := setField r0 "name" (RVal.str st.Name)
  let r := setField r "pad_types" (RVal.str st.PadTypes)
  let r := setField r "jurisdiction" (RVal.str st.Jurisdiction)
  let r := setField r "faction" (RVal.str st.Faction)
  let r := setField r "has_trade_terminal" (RVal.boolean (ConvertToBool st.HasTerminal))
  let r := setField r "has_refinery" (RVal.boolean (ConvertToBool st.HasRefinery))
  let r := setField r "star_system" (RVal.ref sysId)
  let r := match p with
    | some pr => setField r "planet" (RVal.ref pr.id)
    | none => r
  let r := match m with
    | some mr => setField r "moon" (RVal.ref mr.id)
    | none => r
  let r := setField r "orbit" (RVal.str st.Orbit)
  setField r "is_lagrange" (RVal.boolean (ConvertToBool st.IsLagrange))

/-- One iteration of the space-station transaction loop (main.go:679-761):
a station whose named star system is missing returns an error
(main.go:681-686), aborting the whole transaction. -/
def stationStep (db : SystemsDb) (st : SpaceStation) : Except Unit SystemsDb :=
  match findFirstByData db.star_systems "name" st.StarSystemName with
  | none => Except.error ()
  | some sys =>
    let pm := stationRefs db st
    match findFirstByData db.space_stations "name" st.Name with
    | none =>
      Except.ok
        { db with
          space_stations := db.space_stations ++
            [setStationFields { id := freshId db.nextId, fields := [] }
              st sys.id pm.1 pm.2]
          nextId := db.nextId + 1 }
    | some _ =>
      Except.ok
        { db with
          space_stations := replaceFirstBy
            (fun r => getField r "name" == some (RVal.str st.Name))
            (fun r => setStationFields r st sys.id pm.1 pm.2)
            db.space_stations }

/-- The body of the space-station transaction: stop at the first error. -/
def stationsTxBody (db : SystemsDb) : List SpaceStation → Except Unit SystemsDb
  | [] => Except.ok db
  | st :: rest =>
    match stationStep db st with
    | Except.error e => Except.error e
    | Except.ok db' => stationsTxBody db' rest

/-- The viper configuration: a partial map from setting names to string
values.  `viper.Get` of an absent (or non-string) key makes the Go type
assertion `value, ok := viper.Get(key).(string)` yield `("", false)`. -/
structure ViperConfig where
  get : String → Option String

/-- Go's `value, ok := viper.Get(key).(string)`. -/
def viperGetString (cfg : ViperConfig) (key : String) : String × Bool :=
  match cfg.get key with
  | some s => (s, true)
  | none => ("", false)

/-- The external trade API: one oracle per endpoint, keyed by the full
request URL.  `none` stands for any failed round trip — request send
failure, a non-200 status, or an undecodable body — each of which makes
the Go caller return at that point. -/
structure UexApi where
  commodities : String → Option (List Commodity)
  star_systems : String → Option (List StarSystem)
  planets : String → Option (List Planet)
  moons : String → Option (List Moon)
  space_stations : String → Option (List SpaceStation)

/-- Observable outcome of one `UpdateStarSystems` invocation: the URLs of
the requests handed to the HTTP client, in order, and the final store. -/
structure StarRun where
  trace : List String
  db : SystemsDb
deriving DecidableEq

/-- The moon loop of `UpdateStarSystems` (main.go:534-625).  In the source
this loop over `relevantSystems` is nested inside the planet loop; it
fetches the moons of system `sys` and reconciles them in one transaction
(the body never errors here since saves succeed, so it always commits).
An `Except.error` carries the state at a mid-function `return`. -/
def moonsLoop (uexApiUrl : String) (api : UexApi) :
    List StarSystem → StarRun → Except StarRun StarRun
  | [], st => Except.ok st
  | sys :: rest, st =>
    let url := uexApiUrl ++ "/moons?id_star_system=" ++ toString sys.UexID
    let st1 : StarRun := { trace := st.trace ++ [url], db := st.db }
    match api.moons url with
    | none => Except.error st1
    | some data =>
      moonsLoop uexApiUrl api rest
        { trace := st1.trace, db := data.foldl moonStep st1.db }

/-- The space-station loop of `UpdateStarSystems` (main.go:628-764), also
nested inside the planet loop in the source.  The transaction result is
discarded (main.go:676: the return value of `RunInTransaction` is not
checked), so a rolled-back station batch does not stop the loop. -/
def stationsLoop (uexApiUrl : String) (api : UexApi) :
    List StarSystem → StarRun → Except StarRun StarRun
  | [], st => Except.ok st
  | sys :: rest, st =>
    let url := uexApiUrl ++ "/space_stations?id_star_system=" ++ toString sys.UexID
    let st1 : StarRun := { trace := st.trace ++ [url], db := st.db }
    match api.space_stations url with
    | none => Except.error st1
    | some data =>
      stationsLoop uexApiUrl api rest
        { trace := st1.trace
          db := runTransaction st1.db (fun d => stationsTxBody d data) }

/-- The outer loop of `UpdateStarSystems` (main.go:449-765): for each
relevant system, fetch and reconcile its planets, then run the full moon
loop and the full station loop over `relevantSystems` again — the moon and
station loops are nested inside this planet loop in the source. -/
def outerLoop (uexApiUrl : String) (api : UexApi) (relevantSystems : List StarSystem) :
    List StarSystem → StarRun → Except StarRun StarRun
  | [], st => Except.ok st
  | sys :: rest, st =>
    let url := uexApiUrl ++ "/planets?id_star_system=" ++ toString sys.UexID
    let st1 : StarRun := { trace := st.trace ++ [url], db := st.db }
    match api.planets url with
    | none => Except.error st1
    | some data =>
      let st2 : StarRun := { trace := st1.trace, db := data.foldl planetStep st1.db }
      match moonsLoop uexApiUrl api relevantSystems st2 with
      | Except.error s => Except.error s
      | Except.ok st3 =>
        match stationsLoop uexApiUrl api relevantSystems st3 with
        | Except.error s => Except.error s
        | Except.ok st4 => outerLoop uexApiUrl api relevantSystems rest st4

/-- `UpdateStarSystems` (main.go:330-766).  A missing API URL or key is
only logged (main.go:335-343 have no `return`), so the routine proceeds
with the zero-value `""` and still hands the `star_systems` request to the
HTTP client; the filter keeps systems with both flags equal to 1
(main.go:388-393); the system transaction always commits (its body only
errors on a failed save, and saves succeed here). -/
def UpdateStarSystems (cfg : ViperConfig) (api : UexApi) (db : SystemsDb) :
    StarRun :=
  let uexApiUrl := (viperGetString cfg "UEX_API_URL").1
  let _uexApiKey := (viperGetString cfg "UEX_API_KEY").1
  let starsystemUrl := uexApiUrl ++ "/star_systems"
  let run0 : StarRun := { trace := [starsystemUrl], db := db }
  match api.star_systems starsystemUrl with
  | none => run0
  | some data =>
    let relevantSystems :=
      data.filter (fun s => s.IsAvailable == 1 && s.IsVisible == 1)
    let run1 : StarRun :=
      { trace := run0.trace, db := relevantSystems.foldl systemStep run0.db }
    match outerLoop uexApiUrl api relevantSystems relevantSystems run1 with
    | Except.ok r => r
    | Except.error r => r

/-- Observable outcome of one `UpdateCommodities` invocation. -/
structure CommodityRun where
  trace : List String
  db : List CommodityRecord
deriving DecidableEq

/-- `UpdateCommodities` (main.go:96-240).  Unlike `UpdateStarSystems`, a
missing API URL or key returns immediately (main.go:104-114): no request
is issued and the store is untouched. -/
def UpdateCommodities (cfg : ViperConfig) (api : UexApi)
    (db : List CommodityRecord) : CommodityRun :=
  let u := viperGetString cfg "UEX_API_URL"
  if u.2 = false then { trace := [], db := db }
  else
    let k := viperGetString cfg "UEX_API_KEY"
    if k.2 = false then { trace := [], db := db }
    else
      let commodityUrl := u.1 ++ "/commodities"
      match api.commodities commodityUrl with
      | none => { trace := [commodityUrl], db := db }
      | some data => { trace := [commodityUrl], db := UpdateCommoditiesTx db data }

/-! ### Derived-record hooks -/

/-- A stock row of `outpost_commodities`: the outpost link, the commodity
link and the amount (createOutpostCommodities.go:38-41). -/
structure OutpostCommodityRow where
  outpost : String
  commodity : String
  amount : Rat
deriving DecidableEq

/-- An audit row of `commodity_changes` (createOutpostCommodities.go:95-108). -/
structure CommodityChangeRow where
  outpost_commodity : String
  commodity : String
  change_amount : Rat
deriving DecidableEq

/-- The store as the two hooks see it.  Commodity records contribute only
their internal id here. -/
structure HookDb where
  commodities : List PBRecord
  outpost_commodities : List OutpostCommodityRow
  commodity_changes : List CommodityChangeRow
deriving DecidableEq

/-- The stock row built for one commodity
(createOutpostCommodities.go:38-41): linked to the outpost and the
commodity, amount initialized to 0. -/
def stockRow (outpostId : String) (c : PBRecord) : OutpostCommodityRow :=
  { outpost := outpostId, commodity := c.id, amount := 0 }

/-- The loop of `CreateOutpostCommodities`' transaction over the commodity
list fetched at the start (createOutpostCommodities.go:36-50): one new
stock row per commodity; a failed save aborts the body.  `saveOk` is the
store's verdict on each insert. -/
def outpostCommoditiesBody (outpostId : String)
    (saveOk : OutpostCommodityRow → Bool) (db : HookDb) :
    List PBRecord → Except Unit HookDb
  | [] => Except.ok db
  | c :: rest =>
    let row := stockRow outpostId c
    if saveOk row then
      outpostCommoditiesBody outpostId saveOk
        { db with outpost_commodities := db.outpost_commodities ++ [row] } rest
    else Except.error ()

/-- Hook `CreateOutpostCommodities` (createOutpostCommodities.go:12-56):
within one transaction, list all commodities and insert one stock row per
commodity for the freshly created outpost; any failed insert rolls the
whole batch back. -/
def CreateOutpostCommodities (outpostId : String)
    (saveOk : OutpostCommodityRow → Bool) (db : HookDb) : HookDb :=
  runTransaction db
    (fun d => outpostCommoditiesBody outpostId saveOk d d.commodities)

/-- The update event of an `outpost_commodities` record: the record id,
its commodity link, the new amount, and the amount of the pre-update
snapshot (`e.Record.Original()`, createOutpostCommodities.go:81-101). -/
structure OCUpdateEvent where
  id : String
  commodity : String
  amount : Rat
  originalAmount : Rat
deriving DecidableEq

/-- The audit row built by `CreateCommodityChanges`
(createOutpostCommodities.go:95-108): the outpost-commodity link, the
commodity link, and `change_amount = newAmount - previousAmount`. -/
def changeRow (e : OCUpdateEvent) : CommodityChangeRow :=
  { outpost_commodity := e.id
    commodity := e.commodity
    change_amount := e.amount - e.originalAmount }

/-- Hook `CreateCommodityChanges` (createOutpostCommodities.go:73-120):
within one transaction, append one `commodity_changes` row; a failed save
rolls the transaction back. -/
def CreateCommodityChanges (e : OCUpdateEvent)
    (saveOk : CommodityChangeRow → Bool) (db : HookDb) : HookDb :=
  runTransaction db (fun d =>
    let row := changeRow e
    if saveOk row then
      Except.ok { d with commodity_changes := d.commodity_changes ++ [row] }
    else Except.error ())

/-! ### Helper lemmas about records and the station transaction -/

theorem find_setFieldList_self (l : List (String × RVal)) (k : String) (v : RVal) :
    (setFieldList l k v).find? (fun kv => kv.1 == k) = some (k, v) := by
  induction l with
  | nil => simp [setFieldList]
  | cons kv rest ih =>
    by_cases h : kv.1 == k
    · simp [setFieldList, h]
    · simp only [Bool.not_eq_true] at h
      simp [setFieldList, h, List.find?_cons_of_neg, ih]

theorem find_setFieldList_ne (l : List (String × RVal)) (k k' : String) (v : RVal)
    (h : k ≠ k') :
    (setFieldList l k v).find? (fun kv => kv.1 == k')
      = l.find? (fun kv => kv.1 == k') := by
  induction l with
  | nil =>
    have h1 : (k == k') = false := by simp; exact h
    simp [setFieldList, h1]
  | cons kv rest ih =>
    by_cases hkv : kv.1 == k
    · have hk : kv.1 = k := by simpa using hkv
      have h1 : (k == k') = false := by simp; exact h
      have h2 : (kv.1 == k') = false := by simp [hk]; exact h
      simp [setFieldList, hkv, h1, h2, List.find?_cons_of_neg]
    · simp only [Bool.not_eq_true] at hkv
      by_cases hkv' : kv.1 == k'
      · simp [setFieldList, hkv, List.find?_cons_of_pos, hkv']
      · simp only [Bool.not_eq_true] at hkv'
        simp [setFieldList, hkv, List.find?_cons_of_neg, hkv', ih]

theorem getField_setField_self (r : PBRecord) (k : String) (v : RVal) :
    getField (setField r k v) k = some v := by
  simp [getField, setField, find_setFieldList_self]

theorem getField_setField_ne (r : PBRecord) (k k' : String) (v : RVal)
    (h : k ≠ k') : getField (setField r k v) k' = getField r k' := by
  simp [getField, setField, find_setFieldList_ne _ _ _ _ h]

/-- A station step that succeeds never touches the `star_systems`
collection. -/
theorem stationStep_star_systems {db : SystemsDb} {st : SpaceStation}
    {db' : SystemsDb} (h : stationStep db st = Except.ok db') :
    db'.star_systems = db.star_systems := by
  unfold stationStep at h
  cases hf : findFirstByData db.star_systems "name" st.StarSystemName with
  | none => rw [hf] at h; simp at h
  | some sys =>
    rw [hf] at h
    cases hs : findFirstByData db.space_stations "name" st.Name with
    | none =>
      rw [hs] at h
      simp only [Except.ok.injEq] at h
      rw [← h]
    | some r0 =>
      rw [hs] at h
      simp only [Except.ok.injEq] at h
      rw [← h]

/-- If some station of the batch names a star system that is not in the
store, the whole transaction body errors out. -/
theorem stationsTxBody_error {stations : List SpaceStation} :
    ∀ {db : SystemsDb},
      (∃ st, st ∈ stations ∧
        findFirstByData db.star_systems "name" st.StarSystemName = none) →
      stationsTxBody db stations = Except.error () := by
  induction stations with
  | nil =>
    intro db h
    obtain ⟨st, hmem, -⟩ := h
    simp at hmem
  | cons s0 rest ih =>
    intro db h
    obtain ⟨st, hmem, hfind⟩ := h
    show (match stationStep db s0 with
      | Except.error e => Except.error e
      | Except.ok db' => stationsTxBody db' rest) = Except.error ()
    cases hstep : stationStep db s0 with
    | error e => rfl
    | ok db' =>
      rcases List.mem_cons.mp hmem with rfl | hmem'
      · exfalso
        unfold stationStep at hstep
        rw [hfind] at hstep
        simp at hstep
      · exact ih ⟨st, hmem', by rw [stationStep_star_systems hstep]; exact hfind⟩

/-- When every insert succeeds, the outpost-commodities body appends
exactly one stock row per listed commodity, in order. -/
theorem outpostBody_ok (outpostId : String) (saveOk : OutpostCommodityRow → Bool)
    {comms : List PBRecord} :
    ∀ (db : HookDb),
      (∀ c ∈ comms, saveOk (stockRow outpostId c) = true) →
      outpostCommoditiesBody outpostId saveOk db comms
        = Except.ok { db with outpost_commodities :=
            db.outpost_commodities ++ comms.map (stockRow outpostId) } := by
  induction comms with
  | nil => intro db _; simp [outpostCommoditiesBody]
  | cons c rest ih =>
    intro db h
    have hc : saveOk (stockRow outpostId c) = true :=
      h c (List.mem_cons_self _ _)
    have hrest := ih
      { db with outpost_commodities :=
        db.outpost_commodities ++ [stockRow outpostId c] }
      (fun c' hc' => h c' (List.mem_cons_of_mem _ hc'))
    simp only [outpostCommoditiesBody, hc, if_true]
    rw [hrest]
    simp [List.append_assoc]

/-- When some listed commodity's insert fails, the body errors out. -/
theorem outpostBody_err (outpostId : String) (saveOk : OutpostCommodityRow → Bool)
    {comms : List PBRecord} :
    ∀ {db : HookDb},
      (∃ c ∈ comms, saveOk (stockRow outpostId c) = false) →
      outpostCommoditiesBody outpostId saveOk db comms = Except.error () := by
  induction comms with
  | nil =>
    intro db h
    obtain ⟨c, hmem, -⟩ := h
    simp at hmem
  | cons c0 rest ih =>
    intro db h
    obtain ⟨c, hmem, hfail⟩ := h
    by_cases hc0 : saveOk (stockRow outpostId c0) = true
    · simp only [outpostCommoditiesBody, hc0, if_true]
      rcases List.mem_cons.mp hmem with rfl | hmem'
      · rw [hc0] at hfail; cases hfail
      · exact ih ⟨c, hmem', hfail⟩
    · replace hc0 : saveOk (stockRow outpostId c0) = false := by simpa using hc0
      simp [outpostCommoditiesBody, hc0]

/-- After a non-skipped commodity is processed, the first row with its code
carries the rewritten type. -/
theorem processCommodity_found (c : Commodity) (s : List CommodityRecord)
    (h : commoditySkip c = false) :
    ∃ r, findBy commodityKey c.Code (processCommodity s c) = some r
      ∧ r.ctype = rewrittenKind c := by
  cases hf : findBy commodityKey c.Code s with
  | none =>
    refine ⟨createdCommodityRecord c, ?_, rfl⟩
    show findBy commodityKey c.Code
      (gstep commodityKey createdCommodityRecord updatedCommodityRecord s c)
      = some (createdCommodityRecord c)
    rw [gstep_create h hf, findBy_append, hf]
    simp [findBy, commodityKey, createdCommodityRecord]
  | some r0 =>
    refine ⟨updatedCommodityRecord c r0, ?_, rfl⟩
    show findBy commodityKey c.Code
      (gstep commodityKey createdCommodityRecord updatedCommodityRecord s c)
      = some (updatedCommodityRecord c r0)
    rw [gstep_update h hf, findBy_updBy_self _ _ (commodityKey_updated c), hf]
    rfl

/-- Setting the usual station fields never writes the `moon` field when no
moon was resolved. -/
theorem setStationFields_moon (r : PBRecord) (st : SpaceStation) (sysId : String) :
    getField (setStationFields r st sysId none none) "moon" = getField r "moon" := by
  simp [setStationFields, getField_setField_ne]

/-! ### Concrete fixtures used by the closed theorems -/

def cGold : Commodity :=
  { Name := "Gold", Code := "GOLD", Kind := "Metal", PriceBuy := 10,
    PriceSell := 12, IsIllegal := 1, IsAvailableLive := 1, IsTemporary := 0,
    IsSellable := 1 }

def cGoldOre : Commodity := { cGold with Name := "Gold Ore", Code := "GOLDORE" }

def cWidow : Commodity :=
  { Name := "WiDoW", Code := "WID", Kind := "Drug", PriceBuy := 100,
    PriceSell := 120, IsIllegal := 1, IsAvailableLive := 2, IsTemporary := 0,
    IsSellable := 1 }

def cSkipped : Commodity := { cGold with IsAvailableLive := 0 }

def emptySystemsDb : SystemsDb :=
  { star_systems := [], planets := [], moons := [], space_stations := [],
    nextId := 0 }

def apiNone : UexApi :=
  { commodities := fun _ => none, star_systems := fun _ => none,
    planets := fun _ => none, moons := fun _ => none,
    space_stations := fun _ => none }

def cfgNoUrl : ViperConfig :=
  { get := fun k => if k == "UEX_API_KEY" then some "secret" else none }

def cfgNoKey : ViperConfig :=
  { get := fun k => if k == "UEX_API_URL" then some "u" else none }

def cfgFull : ViperConfig :=
  { get := fun k =>
      if k == "UEX_API_URL" then some "u"
      else if k == "UEX_API_KEY" then some "secret" else none }

def sysStanton : StarSystem :=
  { UexID := 1, Name := "Stanton", Code := "ST", Jurisdiction := "UEE",
    Faction := "UEE", IsAvailable := 1, IsVisible := 1 }

def sysPyro : StarSystem :=
  { UexID := 2, Name := "Pyro", Code := "PY", Jurisdiction := "None",
    Faction := "None", IsAvailable := 1, IsVisible := 1 }

def apiOneSystem : UexApi :=
  { commodities := fun _ => none
    star_systems := fun url =>
      if url == "u/star_systems" then some [sysStanton] else none
    planets := fun _ => some []
    moons := fun _ => some []
    space_stations := fun _ => some [] }

def apiTwoSystems : UexApi :=
  { apiOneSystem with
    star_systems := fun url =>
      if url == "u/star_systems" then some [sysStanton, sysPyro] else none }

def moonYela : Moon :=
  { UexID := 10, Name := "Yela", Code := "YELA", PlanetName := "Crusader",
    Jurisdiction := "UEE", Faction := "UEE" }

def stationNyx : SpaceStation :=
  { UexID := 30, StarSystemName := "Nyx", PlanetName := "", MoonName := "",
    Name := "Base X", Code := "BX", PadTypes := "S", Jurisdiction := "None",
    Faction := "None", HasTerminal := 1, HasRefinery := 0, Orbit := "L1",
    IsLagrange := 1 }

def stationPort : SpaceStation :=
  { UexID := 31, StarSystemName := "Stanton", PlanetName := "",
    MoonName := "Yela", Name := "Port Olisar", Code := "PO",
    PadTypes := "S,M", Jurisdiction := "UEE", Faction := "UEE",
    HasTerminal := 1, HasRefinery := 0, Orbit := "Crusader", IsLagrange := 0 }

/-- A pre-existing station record that already carries a moon relation. -/
def recPortOlisar : PBRecord :=
  { id := "st1"
    fields := [("name", RVal.str "Port Olisar"), ("moon", RVal.ref "m7")] }

def dbWithStation : SystemsDb :=
  { star_systems := [{ id := "sys1", fields := [("name", RVal.str "Stanton")] }]
    planets := []
    moons := [{ id := "m7", fields := [("name", RVal.str "Yela")] }]
    space_stations := [recPortOlisar]
    nextId := 5 }

def hookDb0 : HookDb :=
  { commodities := [{ id := "c1", fields := [] }, { id := "c2", fields := [] }]
    outpost_commodities := []
    commodity_changes := [] }

def ev85 : OCUpdateEvent :=
  { id := "oc1", commodity := "c1", amount := 8, originalAmount := 5 }

/-! ### The claims -/

/-- Claim C1: with the API base URL missing from configuration,
`UpdateCommodities` aborts as claimed (no request issued, store untouched,
first two conjuncts also for a missing key), but `UpdateStarSystems` does
not abort: it proceeds with the zero-value `""` and still hands a
`"/star_systems"` request to the HTTP client (and likewise proceeds when
only the key is missing), contradicting the claimed no-partial-effect
abort.  The missing `return` in main.go:335-343 — present in the sibling
`UpdateCommodities`, main.go:104-114 — is a code bug. -/
theorem claim_C1_config_not_aborted :
    UpdateCommodities cfgNoUrl apiNone [] = { trace := [], db := [] }
    ∧ UpdateCommodities cfgNoKey apiNone [] = { trace := [], db := [] }
    ∧ (UpdateStarSystems cfgNoUrl apiNone emptySystemsDb).trace
        = ["/star_systems"]
    ∧ (UpdateStarSystems cfgNoUrl apiNone emptySystemsDb).db = emptySystemsDb
    ∧ (UpdateStarSystems cfgNoKey apiNone emptySystemsDb).trace
        = ["u/star_systems"] := by
  refine ⟨?_, ?_, ?_, ?_, ?_⟩ <;> decide

/-- Claim C2: with two relevant star systems, the planet
fetch-and-reconcile runs once per system, but the moon and space-station
loops are nested inside the planet loop (main.go:534 and main.go:628 sit
inside the loop opened at main.go:449), so each moon and station
fetch-and-reconcile pass runs twice per system — n squared executions
instead of the claimed n. -/
theorem claim_C2_nested_loops :
    (UpdateStarSystems cfgFull apiTwoSystems emptySystemsDb).trace
      = ["u/star_systems",
         "u/planets?id_star_system=1",
         "u/moons?id_star_system=1", "u/moons?id_star_system=2",
         "u/space_stations?id_star_system=1", "u/space_stations?id_star_system=2",
         "u/planets?id_star_system=2",
         "u/moons?id_star_system=1", "u/moons?id_star_system=2",
         "u/space_stations?id_star_system=1", "u/space_stations?id_star_system=2"]
    ∧ ((UpdateStarSystems cfgFull apiTwoSystems emptySystemsDb).trace.countP
        (fun u => u == "u/moons?id_star_system=1")) = 2
    ∧ ((UpdateStarSystems cfgFull apiTwoSystems emptySystemsDb).trace.countP
        (fun u => u == "u/space_stations?id_star_system=1")) = 2
    ∧ ((UpdateStarSystems cfgFull apiTwoSystems emptySystemsDb).trace.countP
        (fun u => u == "u/planets?id_star_system=1")) = 1 := by
  refine ⟨?_, ?_, ?_, ?_⟩ <;> decide

/-- Claim C3, counterexample: commodity sync is not idempotent as stated.
Starting from an empty store, one run stores `is_illegal` as the boolean
`ConvertToBool 1 = true`; the second run's update path overwrites it with
the raw integer `1`, so the stored rows differ. -/
theorem claim_C3_counterexample :
    UpdateCommoditiesTx (UpdateCommoditiesTx [] [cGold]) [cGold]
      ≠ UpdateCommoditiesTx [] [cGold] := by
  decide

/-- Claim C3, amended: running the sync twice with the same upstream data
leaves the same stored rows as running it once up to the representation of
`is_illegal` (projecting that field away, the stores agree — in particular
no duplicate row per code is created and every other field is overwritten
with an identical value), and from the second run on the sync is strictly
idempotent: a third run changes nothing at all. -/
theorem claim_C3_amended (s : List CommodityRecord) (d : List Commodity) :
    (UpdateCommoditiesTx (UpdateCommoditiesTx s d) d).map projCommodityRecord
      = (UpdateCommoditiesTx s d).map projCommodityRecord
    ∧ UpdateCommoditiesTx (UpdateCommoditiesTx (UpdateCommoditiesTx s d) d) d
      = UpdateCommoditiesTx (UpdateCommoditiesTx s d) d := by
  constructor
  · simp only [proj_UpdateCommoditiesTx]
    exact gfold_twice_eq_once pKey_pUpd pKey_pMk pUpd_absorb pUpd_pMk _ d
  · exact gfold_thrice_eq_twice commodityKey_updated commodityKey_created
      updated_absorb s d

/-- Claim C4, counterexample: the star-system record persisted for a
system with external id 1 carries only name, code, jurisdiction and
faction — no `uex_id` field (and no availability or visibility flags), so
the record does not carry the external numeric id. -/
theorem claim_C4_counterexample :
    (UpdateStarSystems cfgFull apiOneSystem emptySystemsDb).db.star_systems
      = [{ id := "rec0"
           fields := [("name", RVal.str "Stanton"), ("code", RVal.str "ST"),
             ("jurisdiction", RVal.str "UEE"), ("faction", RVal.str "UEE")] }]
    ∧ ((UpdateStarSystems cfgFull apiOneSystem emptySystemsDb).db.star_systems.all
        (fun r => getField r "uex_id" == none)) = true
    ∧ sysStanton.UexID = 1 := by
  refine ⟨?_, ?_, ?_⟩ <;> decide

/-- Claim C4, amended: every star-system record created by
`UpdateStarSystems` carries exactly name, code, jurisdiction and faction,
and in particular no `uex_id` field for the external numeric id (the
update path overwrites jurisdiction and faction only). -/
theorem claim_C4_amended (db : SystemsDb) (sys : StarSystem)
    (h : findFirstByData db.star_systems "code" sys.Code = none) :
    (systemStep db sys).star_systems
      = db.star_systems ++ [newSystemRecord sys (freshId db.nextId)]
    ∧ (newSystemRecord sys (freshId db.nextId)).fields
      = [("name", RVal.str sys.Name), ("code", RVal.str sys.Code),
         ("jurisdiction", RVal.str sys.Jurisdiction),
         ("faction", RVal.str sys.Faction)]
    ∧ getField (newSystemRecord sys (freshId db.nextId)) "uex_id" = none := by
  refine ⟨?_, rfl, rfl⟩
  simp [systemStep, h]

/-- Witness for the amended C4 at a concrete input. -/
theorem claim_C4_witness :
    (systemStep emptySystemsDb sysStanton).star_systems
      = emptySystemsDb.star_systems
        ++ [newSystemRecord sysStanton (freshId emptySystemsDb.nextId)] :=
  (claim_C4_amended emptySystemsDb sysStanton (by decide)).1

/-- Claim C5, counterexample: a commodity whose available-live flag is 2 —
false under the claim's "1 means true, anything else means false"
semantics — is nevertheless written to the store, because the code only
skips on `IsAvailableLive == 0` (main.go:172). -/
theorem claim_C5_counterexample :
    cWidow.IsAvailableLive ≠ 1
    ∧ UpdateCommoditiesTx [] [cWidow] = [createdCommodityRecord cWidow]
    ∧ UpdateCommoditiesTx [] [cWidow] ≠ [] := by
  refine ⟨?_, ?_, ?_⟩ <;> decide

/-- Claim C5, amended: the filter compares the raw integers to 0 and 1: a
commodity with `IsAvailableLive = 0`, or `IsTemporary = 1`, or
`IsSellable = 0` is skipped and never written — processing it leaves any
store unchanged. -/
theorem claim_C5_amended (c : Commodity) (s : List CommodityRecord)
    (h : c.IsAvailableLive = 0 ∨ c.IsTemporary = 1 ∨ c.IsSellable = 0) :
    processCommodity s c = s := by
  have hs : commoditySkip c = true := by
    rcases h with h | h | h <;> simp [commoditySkip, h]
  exact gstep_skip hs

/-- Witness for the amended C5 at a concrete input. -/
theorem claim_C5_witness :
    cSkipped.IsAvailableLive = 0 ∧ processCommodity [] cSkipped = [] :=
  ⟨rfl, claim_C5_amended cSkipped [] (Or.inl rfl)⟩

/-- Claim C6: for a commodity that passes the inclusion filters, if its
name contains "ore" (case-insensitively) and not "raw", the stored row's
type is "Ore"; if it contains both, the "raw" rewrite runs after the "ore"
rewrite and wins, so the stored type is "Raw". -/
theorem claim_C6_ore_raw (c : Commodity) (s : List CommodityRecord)
    (h : commoditySkip c = false) :
    (ContainsIgnoreCase c.Name "ore" = true →
      ContainsIgnoreCase c.Name "raw" = false →
      ∃ r, findBy commodityKey c.Code (processCommodity s c) = some r
        ∧ r.ctype = "Ore")
    ∧ (ContainsIgnoreCase c.Name "ore" = true →
      ContainsIgnoreCase c.Name "raw" = true →
      ∃ r, findBy commodityKey c.Code (processCommodity s c) = some r
        ∧ r.ctype = "Raw") := by
  obtain ⟨r, hr, hk⟩ := processCommodity_found c s h
  constructor
  · intro hore hraw
    exact ⟨r, hr, by rw [hk]; simp [rewrittenKind, hore, hraw]⟩
  · intro hore hraw
    exact ⟨r, hr, by rw [hk]; simp [rewrittenKind, hore, hraw]⟩

/-- Witness for C6 at a concrete input (the spec's round-trip example:
`Gold Ore` is stored with type "Ore"). -/
theorem claim_C6_witness :
    commoditySkip cGoldOre = false
    ∧ ∃ r, findBy commodityKey cGoldOre.Code (processCommodity [] cGoldOre)
        = some r ∧ r.ctype = "Ore" :=
  ⟨by decide, (claim_C6_ore_raw cGoldOre [] (by decide)).1 (by decide) (by decide)⟩

/-- Claim C7: a moon whose named parent planet is missing is skipped — no
row is created, no error is raised, and the rest of the moon batch
continues — whereas a single station whose named star system is missing
makes the whole station transaction roll back: no station rows are
committed in that pass. -/
theorem claim_C7_parent_refs (db : SystemsDb) (m : Moon) (moonsRest : List Moon)
    (stations : List SpaceStation) :
    (findFirstByData db.planets "name" m.PlanetName = none →
      moonStep db m = db
      ∧ (m :: moonsRest).foldl moonStep db = moonsRest.foldl moonStep db)
    ∧ ((∃ st, st ∈ stations ∧
        findFirstByData db.star_systems "name" st.StarSystemName = none) →
      runTransaction db (fun d => stationsTxBody d stations) = db) := by
  constructor
  · intro h
    have hstep : moonStep db m = db := by simp [moonStep, h]
    exact ⟨hstep, by simp [List.foldl_cons, hstep]⟩
  · intro h
    exact runTransaction_of_error (stationsTxBody_error h)

/-- Witness for C7 at concrete inputs: moon `Yela` with parent planet
`Crusader` absent, and a station naming the absent system `Nyx`. -/
theorem claim_C7_witness :
    moonStep emptySystemsDb moonYela = emptySystemsDb
    ∧ runTransaction emptySystemsDb (fun d => stationsTxBody d [stationNyx])
        = emptySystemsDb := by
  refine ⟨((claim_C7_parent_refs emptySystemsDb moonYela [] [stationNyx]).1
    (by decide)).1, ?_⟩
  exact (claim_C7_parent_refs emptySystemsDb moonYela [] [stationNyx]).2
    ⟨stationNyx, List.mem_cons_self _ _, by decide⟩

/-- Claim C8: on outpost creation the hook inserts, in one transaction,
exactly one stock row per commodity in the store — linking the outpost and
the commodity with amount 0, in order — and if any single insert fails the
whole batch rolls back, leaving no partial stock rows. -/
theorem claim_C8_outpost_hook (db : HookDb) (outpostId : String)
    (saveOk : OutpostCommodityRow → Bool) :
    ((∀ c ∈ db.commodities, saveOk (stockRow outpostId c) = true) →
      CreateOutpostCommodities outpostId saveOk db
        = { db with outpost_commodities :=
            db.outpost_commodities ++ db.commodities.map (stockRow outpostId) })
    ∧ ((∃ c ∈ db.commodities, saveOk (stockRow outpostId c) = false) →
      CreateOutpostCommodities outpostId saveOk db = db) := by
  constructor
  · intro h
    exact runTransaction_of_ok (outpostBody_ok outpostId saveOk db h)
  · intro h
    exact runTransaction_of_error (outpostBody_err outpostId saveOk h)

/-- Witness for C8 at a concrete input: two commodities, one run where
every insert succeeds and one where the insert for `c2` fails. -/
theorem claim_C8_witness :
    CreateOutpostCommodities "outpost1" (fun _ => true) hookDb0
      = { hookDb0 with outpost_commodities := hookDb0.outpost_commodities
          ++ hookDb0.commodities.map (stockRow "outpost1") }
    ∧ CreateOutpostCommodities "outpost1" (fun r => r.commodity != "c2") hookDb0
      = hookDb0 := by
  constructor
  · exact (claim_C8_outpost_hook hookDb0 "outpost1" (fun _ => true)).1
      (fun c hc => rfl)
  · exact (claim_C8_outpost_hook hookDb0 "outpost1"
      (fun r => r.commodity != "c2")).2
      ⟨{ id := "c2", fields := [] }, by decide, by decide⟩

/-- Claim C9: on an outpost-commodity update the hook appends, in one
transaction, exactly one change row carrying the outpost-commodity link,
the commodity link, and `change_amount = newAmount - previousAmount`
(previous value from the pre-update snapshot); a failed save rolls the
transaction back, so no change row is silently dropped from a committed
transaction. -/
theorem claim_C9_change_hook (db : HookDb) (e : OCUpdateEvent)
    (saveOk : CommodityChangeRow → Bool) :
    (changeRow e).change_amount = e.amount - e.originalAmount
    ∧ (changeRow e).outpost_commodity = e.id
    ∧ (changeRow e).commodity = e.commodity
    ∧ (saveOk (changeRow e) = true →
      CreateCommodityChanges e saveOk db
        = { db with commodity_changes := db.commodity_changes ++ [changeRow e] })
    ∧ (saveOk (changeRow e) = false →
      CreateCommodityChanges e saveOk db = db) := by
  refine ⟨rfl, rfl, rfl, ?_, ?_⟩ <;>
    intro h <;> simp [CreateCommodityChanges, runTransaction, h]

/-- Witness for C9 at a concrete input (the spec's scenario: amount going
from 5 to 8 yields one change row with delta +3). -/
theorem claim_C9_witness :
    CreateCommodityChanges ev85 (fun _ => true) hookDb0
      = { hookDb0 with commodity_changes := hookDb0.commodity_changes
          ++ [{ outpost_commodity := "oc1", commodity := "c1", change_amount := 3 }] } := by
  have h := (claim_C9_change_hook hookDb0 ev85 (fun _ => true)).2.2.2.1 rfl
  have h3 : (8 : Rat) - 5 = 3 := by norm_num
  refine h.trans ?_
  simp [changeRow, ev85, h3]

/-- Claim C10, counterexample: for a station with an empty planet name the
moon lookup is indeed never attempted, but an updated pre-existing station
record keeps the moon reference it already carried, so the persisted
record is not free of moon references as claimed. -/
theorem claim_C10_counterexample :
    stationPort.PlanetName = "" ∧ stationPort.MoonName = "Yela"
    ∧ ((stationStep dbWithStation stationPort).toOption.map
        (fun db' => db'.space_stations.map (fun r => getField r "moon")))
      = some [some (RVal.ref "m7")] := by
  refine ⟨rfl, rfl, ?_⟩
  decide

/-- Claim C10, amended: for a station whose planet name is empty, neither
the planet nor the moon is resolved (no moon lookup happens, even with a
non-empty moon name), and the write sets no moon field: a freshly created
record carries none, and an updated record keeps its previous `moon` field
unchanged. -/
theorem claim_C10_amended (db : SystemsDb) (st : SpaceStation) (r : PBRecord)
    (sysId rid : String) (h : st.PlanetName = "") :
    stationRefs db st = (none, none)
    ∧ getField (setStationFields r st sysId none none) "moon" = getField r "moon"
    ∧ getField (setStationFields { id := rid, fields := [] } st sysId none none)
        "moon" = none := by
  refine ⟨?_, setStationFields_moon r st sysId, ?_⟩
  · simp [stationRefs, h]
  · rw [setStationFields_moon]
    rfl

/-- Witness for the amended C10 at a concrete input. -/
theorem claim_C10_witness :
    stationRefs dbWithStation stationPort = (none, none)
    ∧ getField (setStationFields recPortOlisar stationPort "sys1" none none)
        "moon" = getField recPortOlisar "moon" :=
  ⟨(claim_C10_amended dbWithStation stationPort recPortOlisar "sys1" "x" rfl).1,
   (claim_C10_amended dbWithStation stationPort recPortOlisar "sys1" "x" rfl).2.1⟩
